import Mathlib

/-!
Verification of the Cloud-Media client (Angular frontend) against its
natural-language specification.

The embedding models:
* `AuthService` (src/unnamed/part_006, first document): session storage,
  token-expiry check, single-fire logout;
* `ErrorInterceptor` (src/frontend/src/app/core/error.interceptor.ts);
* `HomeComponent` (src/unnamed/part_002, second document): tab/search view
  state, per-item operation guard, optimistic mutations, storage quota;
* `MediaService.getPlanDisplayName` (src/unnamed/part_006, second document).

JavaScript strings are modelled as Lean `String`s, with the character-level
operations (`toLowerCase`, `trim`, `includes`, `split`) carried out on the
underlying `List Char` so that every definition is executable and reduces in
the kernel.  JavaScript numbers that take part in division are modelled as
rationals (`ℚ`); byte counts that are only stored are `Int`.  Browser
built-ins (`atob`/`JSON.parse`, `JSON.stringify`) are abstract function
parameters since their code is not part of this repository.  The
single-threaded event-loop concurrency of the source is modelled by explicit
step functions: each method call or asynchronous continuation is one step
mapping a component state to a new state plus the list of effects/requests
it emits synchronously.
-/

namespace CloudMedia

/-! ## Character-list models of the JavaScript string operations used -/

/-- Model of `String.prototype.toLowerCase` (on the basic-latin range, as
Lean's `Char.toLower`). -/
def toLowerL (s : List Char) : List Char := s.map Char.toLower

/-- Model of `String.prototype.trim`: drop whitespace from both ends. -/
def trimL (s : List Char) : List Char :=
  ((s.dropWhile Char.isWhitespace).reverse.dropWhile Char.isWhitespace).reverse

/-- Does `s` start with `p`?  (Helper for the `includes` model.) -/
def startsWithL : List Char → List Char → Bool
  | _, [] => true
  | [], _ :: _ => false
  | c :: cs, p :: ps => c == p && startsWithL cs ps

/-- Model of `String.prototype.includes`: `p` occurs contiguously in `s`. -/
def containsSeq : List Char → List Char → Bool
  | [], p => p.isEmpty
  | s@(_ :: cs), p => startsWithL s p || containsSeq cs p

/-- Model of `String.prototype.split` with a one-character separator
(the source always splits on `'.'`). -/
def splitOnChar (sep : Char) : List Char → List (List Char)
  | [] => [[]]
  | c :: cs =>
    let rest := splitOnChar sep cs
    if c = sep then [] :: rest
    else
      match rest with
      | [] => [[c]]
      | r :: rs => (c :: r) :: rs

theorem startsWithL_iff (s p : List Char) :
    startsWithL s p = true ↔ ∃ post, s = p ++ post := by
  induction p generalizing s with
  | nil => simp [startsWithL]
  | cons x xs ih =>
    cases s with
    | nil => simp [startsWithL]
    | cons c cs =>
      simp only [startsWithL, Bool.and_eq_true, beq_iff_eq, ih, List.cons_append,
        List.cons.injEq]
      constructor
      · rintro ⟨rfl, post, rfl⟩
        exact ⟨post, rfl, rfl⟩
      · rintro ⟨post, rfl, rfl⟩
        exact ⟨rfl, post, rfl⟩

theorem containsSeq_iff (s p : List Char) :
    containsSeq s p = true ↔ ∃ pre post, s = pre ++ p ++ post := by
  induction s with
  | nil =>
    simp only [containsSeq, List.isEmpty_iff]
    constructor
    · rintro rfl
      exact ⟨[], [], rfl⟩
    · rintro ⟨pre, post, h⟩
      have h1 := List.append_eq_nil.mp h.symm
      have h2 := List.append_eq_nil.mp h1.1
      exact h2.2
  | cons c cs ih =>
    simp only [containsSeq, Bool.or_eq_true, startsWithL_iff, ih]
    constructor
    · rintro (⟨post, h⟩ | ⟨pre, post, h⟩)
      · exact ⟨[], post, by simpa using h⟩
      · exact ⟨c :: pre, post, by simp [h]⟩
    · rintro ⟨pre, post, h⟩
      cases pre with
      | nil =>
        left
        exact ⟨post, by simpa using h⟩
      | cons a as =>
        right
        simp only [List.cons_append, List.cons.injEq] at h
        exact ⟨as, post, h.2⟩

theorem isWhitespace_toLower (c : Char) :
    (Char.toLower c).isWhitespace = c.isWhitespace := by
  unfold Char.toLower
  simp only []
  split
  · rename_i h
    obtain ⟨h1, h2⟩ := h
    have hws : c.isWhitespace = false := by
      simp only [Char.isWhitespace, Bool.or_eq_false_iff, decide_eq_false_iff_not]
      refine ⟨⟨⟨?_, ?_⟩, ?_⟩, ?_⟩ <;>
        · rintro rfl
          revert h1 h2
          decide
    rw [hws]
    have hb : 97 ≤ c.toNat + 32 ∧ c.toNat + 32 ≤ 122 := by omega
    generalize hg : c.toNat + 32 = k at hb
    obtain ⟨hb1, hb2⟩ := hb
    interval_cases k <;> decide
  · rfl

theorem trimL_toLowerL (q : List Char) : trimL (toLowerL q) = toLowerL (trimL q) := by
  have hp : (Char.isWhitespace ∘ Char.toLower) = Char.isWhitespace := by
    funext c
    exact isWhitespace_toLower c
  simp only [trimL, toLowerL, ← List.map_reverse, List.dropWhile_map, hp]

/-! ## AuthService (src/unnamed/part_006): session state and logout -/

/-- The `User` interface from `auth.service.ts`. -/
structure User where
  id : String
  firstName : String
  lastName : String
  email : String
deriving DecidableEq

/-- The `AuthResponse` interface from `auth.service.ts`. -/
structure AuthResponse where
  accessToken : String
  user : User
deriving DecidableEq

/-- The decoded JWT payload, projected to the only claim the source reads:
`payload.exp`, a number when present. -/
structure TokenPayload where
  exp : Option Int
deriving DecidableEq

/-- The mutable state of `AuthService` together with the two `localStorage`
entries it owns (`'token'` and `'user'`, the latter a serialized string) and
whether a `router.navigate(['/login'])` promise is still pending. -/
structure AuthState where
  storedToken : Option String
  storedUser : Option String
  currentUser : Option User
  isLoggingOut : Bool
  navPending : Bool
deriving DecidableEq

/-- Externally visible effects of `AuthService` steps, in emission order. -/
inductive AuthEffect where
  | removeTokenEntry
  | removeUserEntry
  | publishUser (u : Option User)
  | navigateLogin
deriving DecidableEq

/-- Model of `AuthService.logout()`.  Returns the state after the synchronous body and
the effects emitted, in order.  The `navigateLogin` effect is the *start* of
the asynchronous navigation; its completion is the separate step
`navigationSettled`. -/
def logout (s : AuthState) : AuthState × List AuthEffect :=
  if s.isLoggingOut then (s, [])
  else
    ({ s with
        isLoggingOut := true
        storedToken := none
        storedUser := none
        currentUser := none
        navPending := true },
     [AuthEffect.removeTokenEntry, AuthEffect.removeUserEntry,
      AuthEffect.publishUser none, AuthEffect.navigateLogin])

/-- The `.then(...)` continuation of `router.navigate` in `logout()`. -/
def navigationSettled (s : AuthState) : AuthState :=
  { s with isLoggingOut := false, navPending := false }

/-- Model of `logout()` invoked `n` times with no `navigationSettled` step in
between (i.e. while the first call's navigation is still pending). -/
def logoutCalls : Nat → AuthState → AuthState × List AuthEffect
  | 0, s => (s, [])
  | n + 1, s =>
    let r1 := logout s
    let r2 := logoutCalls n r1.1
    (r2.1, r1.2 ++ r2.2)

/-- Model of `AuthService.isTokenExpired`.  Here `decode` abstracts
`payload => JSON.parse(atob(payload))` projected to the `exp` claim: `none`
when decoding throws, otherwise the optional numeric `exp`.  A present but
zero `exp` is falsy in `if (!payload.exp)`, hence modelled separately. -/
def isTokenExpired (decode : List Char → Option TokenPayload) (token : String)
    (now : Int) : Bool :=
  match splitOnChar '.' token.data with
  | [_, payloadSeg, _] =>
    match decode payloadSeg with
    | none => true
    | some payload =>
      match payload.exp with
      | none => true
      | some e => e == 0 || decide (e < now)
  | _ => true

/-- Modelled from the spec: the claim's reading of the expiry check, in which
a token is expired exactly when it does not have three dot-separated
segments, or decoding fails, or the `exp` claim is absent, or `exp < now` —
with no special case for a present-but-zero `exp`.  Used only to compare the
claim's words with the source's `isTokenExpired`. -/
def claimExpired (decode : List Char → Option TokenPayload) (token : String)
    (now : Int) : Bool :=
  match splitOnChar '.' token.data with
  | [_, payloadSeg, _] =>
    match decode payloadSeg with
    | none => true
    | some payload =>
      match payload.exp with
      | none => true
      | some e => decide (e < now)
  | _ => true

/-- Model of `AuthService.isAuthenticated()`: returns the boolean result, the state
after the call, and the effects emitted (it calls `logout()` internally when
the stored token is expired). -/
def isAuthenticatedCheck (decode : List Char → Option TokenPayload) (now : Int)
    (s : AuthState) : Bool × AuthState × List AuthEffect :=
  if s.isLoggingOut then (false, s, [])
  else
    match s.storedToken with
    | none => (false, s, [])
    | some token =>
      if isTokenExpired decode token now then
        let r := logout s
        (false, r.1, r.2)
      else (true, s, [])

/-- Model of `AuthService.handleAuthSuccess` (run by the `tap` of `register`/`login`).
`stringify` abstracts `JSON.stringify`. -/
def handleAuthSuccess (stringify : User → String) (resp : AuthResponse)
    (s : AuthState) : AuthState :=
  { s with
      storedToken := some resp.accessToken
      storedUser := some (stringify resp.user)
      currentUser := some resp.user }

/-- Model of `AuthService.getUserFromStorage`.  Here `parse` abstracts `JSON.parse` on the
stored user entry (`none` when it throws).  On a parse failure the source
removes only the `'user'` entry. -/
def getUserFromStorage (parse : String → Option User) (s : AuthState) :
    Option User × AuthState :=
  match s.storedUser with
  | some userStr =>
    match parse userStr with
    | some u => (some u, s)
    | none => (none, { s with storedUser := none })
  | none => (none, s)

/-- The `AuthService` constructor-time initialisation: the
`BehaviorSubject` is seeded with `getUserFromStorage()` over whatever the
durable store holds at startup. -/
def serviceInit (parse : String → Option User) (storedToken : Option String)
    (storedUser : Option String) : AuthState :=
  let s0 : AuthState := ⟨storedToken, storedUser, none, false, false⟩
  let r := getUserFromStorage parse s0
  { r.2 with currentUser := r.1 }

/-- The no-partial-session invariant: the durable token entry and the durable
user entry are set together or absent together. -/
def sessionConsistent (s : AuthState) : Prop :=
  s.storedToken = none ↔ s.storedUser = none

instance (s : AuthState) : Decidable (sessionConsistent s) := by
  unfold sessionConsistent
  infer_instance

/-! ## ErrorInterceptor (src/frontend/src/app/core/error.interceptor.ts) -/

/-- Result of one `ErrorInterceptor.intercept` error path: the session state
afterwards, the effects emitted (including those of any `logout()` it or
`isAuthenticated()` triggered, plus its own `router.navigate`), whether the
interceptor itself called `authService.logout()`, and the error status it
re-throws to the original caller (`none` would mean suppressed). -/
structure InterceptResult where
  state : AuthState
  effects : List AuthEffect
  calledLogout : Bool
  rethrown : Option Nat
deriving DecidableEq

/-- The `catchError` body of `ErrorInterceptor.intercept` handling a response
error with the given HTTP `status`. -/
def interceptError (decode : List Char → Option TokenPayload) (now : Int)
    (status : Nat) (s : AuthState) : InterceptResult :=
  if status = 401 then
    let chk := isAuthenticatedCheck decode now s
    if chk.1 then
      let r := logout chk.2.1
      ⟨r.1, chk.2.2 ++ r.2, true, some status⟩
    else
      ⟨chk.2.1, chk.2.2 ++ [AuthEffect.navigateLogin], false, some status⟩
  else ⟨s, [], false, some status⟩

/-! ## MediaService and HomeComponent data model (src/unnamed/part_006,
src/unnamed/part_002) -/

inductive MediaType where
  | photo
  | video
  | audio
deriving DecidableEq

inductive MediaStatus where
  | active
  | trashed
  | deleted_permanent
deriving DecidableEq

structure BlobInfo where
  containerName : String
  blobName : String
  url : String
deriving DecidableEq

/-- The `MediaItem` interface from `media.service.ts`. -/
structure MediaItem where
  id : String
  type : MediaType
  title : String
  blob : BlobInfo
  sizeBytes : Int
  status : MediaStatus
  isFavorite : Bool
  isDeleted : Bool
  createdAt : String
  trashedAt : Option String
deriving DecidableEq

/-- The `StorageSummary` interface from `media.service.ts`.  The byte fields are
rationals because `getStoragePercentage` divides them. -/
structure StorageSummary where
  usedBytes : ℚ
  quotaBytes : ℚ
  availableBytes : ℚ
  usagePercentage : ℚ
  updatedAt : String
deriving DecidableEq

/-- The query-parameter filters `MediaService.getMedia` sends. -/
structure MediaFilters where
  type? : Option MediaType
  favorites? : Option Bool
  trash? : Option Bool
deriving DecidableEq

/-- The HTTP requests `HomeComponent` can issue through `MediaService`. -/
inductive MediaRequest where
  | getMedia (filters : MediaFilters)
  | upload (title : String)
  | toggleFavorite (id : String) (isFavorite : Bool)
  | toggleTrash (id : String) (isDeleted : Bool)
  | deleteMedia (id : String)
  | getStorageSummary
deriving DecidableEq

/-- The mutable state of `HomeComponent`.  `Set` fields are `Finset String`,
the `Map` field is an association list. -/
structure HomeState where
  currentUser : Option User
  mediaItems : List MediaItem
  filteredItems : List MediaItem
  activeTab : String
  searchQuery : String
  isLoading : Bool
  nowPlaying : Option MediaItem
  uploadingFiles : Finset String
  operatingItems : Finset String
  uploadProgress : List (String × Nat)
  uploadError : Option String
  storageSummary : Option StorageSummary
  storageLoading : Bool
deriving DecidableEq

/-- The `switch (this.activeTab)` of `HomeComponent.loadMedia` building the
server-side filters (an unknown tab falls through with no filters). -/
def tabFilters (activeTab : String) : MediaFilters :=
  if activeTab = "photos" then ⟨some MediaType.photo, none, none⟩
  else if activeTab = "videos" then ⟨some MediaType.video, none, none⟩
  else if activeTab = "audio" then ⟨some MediaType.audio, none, none⟩
  else if activeTab = "favorites" then ⟨none, some true, none⟩
  else if activeTab = "trash" then ⟨none, none, some true⟩
  else ⟨none, none, none⟩

/-- Model of `HomeComponent.loadMedia` up to its asynchronous completion: sets the
loading flag and issues the tab-filtered `getMedia` request. -/
def loadMedia (s : HomeState) : HomeState × List MediaRequest :=
  ({ s with isLoading := true }, [MediaRequest.getMedia (tabFilters s.activeTab)])

/-- Model of `HomeComponent.loadStorageSummary` up to its asynchronous completion. -/
def loadStorageSummary (s : HomeState) : HomeState × List MediaRequest :=
  ({ s with storageLoading := true }, [MediaRequest.getStorageSummary])

/-- Model of `HomeComponent.applySearch`: the pure projection from the cached
`mediaItems` and the current `searchQuery` to the displayed list. -/
def applySearch (searchQuery : String) (mediaItems : List MediaItem) :
    List MediaItem :=
  if trimL searchQuery.data = [] then mediaItems
  else
    mediaItems.filter fun item =>
      containsSeq (toLowerL item.title.data) (trimL (toLowerL searchQuery.data))

/-- Model of `HomeComponent.applySearch` as a state step (it assigns
`filteredItems` and issues no request). -/
def applySearchStep (s : HomeState) : HomeState × List MediaRequest :=
  ({ s with filteredItems := applySearch s.searchQuery s.mediaItems }, [])

/-- The in-place `item.isFavorite = v` assignment, seen through every cached
list holding the (aliased) item object: all entries with the item's id are
updated. -/
def setFavoriteLocal (id : String) (v : Bool) (items : List MediaItem) :
    List MediaItem :=
  items.map fun it => if it.id = id then { it with isFavorite := v } else it

/-- The in-place `item.isDeleted = v` assignment, as `setFavoriteLocal`. -/
def setDeletedLocal (id : String) (v : Bool) (items : List MediaItem) :
    List MediaItem :=
  items.map fun it => if it.id = id then { it with isDeleted := v } else it

/-- Model of `HomeComponent.toggleFavorite(item)` up to dispatching the request: the
operation-guard check, the synchronous guard insertion and the request. -/
def toggleFavoriteCall (item : MediaItem) (s : HomeState) :
    HomeState × List MediaRequest :=
  if item.id ∈ s.operatingItems then (s, [])
  else
    ({ s with operatingItems := insert item.id s.operatingItems },
     [MediaRequest.toggleFavorite item.id (!item.isFavorite)])

/-- The success continuation of `toggleFavorite` for the item's id and the
requested status `newFavoriteStatus`. -/
def toggleFavoriteSuccess (itemId : String) (newFavoriteStatus : Bool)
    (s : HomeState) : HomeState × List MediaRequest :=
  let s1 := { s with
    mediaItems := setFavoriteLocal itemId newFavoriteStatus s.mediaItems
    filteredItems := setFavoriteLocal itemId newFavoriteStatus s.filteredItems
    operatingItems := s.operatingItems.erase itemId }
  if s.activeTab = "favorites" ∧ newFavoriteStatus = false then loadMedia s1
  else (s1, [])

/-- The error continuation of `toggleFavorite`. -/
def toggleFavoriteError (itemId : String) (s : HomeState) : HomeState :=
  { s with operatingItems := s.operatingItems.erase itemId }

/-- Model of `HomeComponent.toggleTrash(item)` up to dispatching the request. -/
def toggleTrashCall (item : MediaItem) (s : HomeState) :
    HomeState × List MediaRequest :=
  if item.id ∈ s.operatingItems then (s, [])
  else
    ({ s with operatingItems := insert item.id s.operatingItems },
     [MediaRequest.toggleTrash item.id (!item.isDeleted)])

/-- The success continuation of `toggleTrash`: optimistic local update, guard
release, storage refresh only when the response carries a summary, and a
re-fetch only when the tab is not `trash` and the item was just trashed. -/
def toggleTrashSuccess (itemId : String) (newTrashStatus : Bool)
    (respStorage : Option StorageSummary) (s : HomeState) :
    HomeState × List MediaRequest :=
  let s1 := { s with
    mediaItems := setDeletedLocal itemId newTrashStatus s.mediaItems
    filteredItems := setDeletedLocal itemId newTrashStatus s.filteredItems
    operatingItems := s.operatingItems.erase itemId }
  let s2 :=
    match respStorage with
    | some st => { s1 with storageSummary := some st }
    | none => s1
  if s.activeTab ≠ "trash" ∧ newTrashStatus = true then loadMedia s2
  else (s2, [])

/-- The error continuation of `toggleTrash`. -/
def toggleTrashError (itemId : String) (s : HomeState) : HomeState :=
  { s with operatingItems := s.operatingItems.erase itemId }

/-- Model of `HomeComponent.deleteMedia(item)` up to dispatching the request; the
result of the `confirm(...)` dialog is the `confirmed` parameter. -/
def deleteMediaCall (confirmed : Bool) (item : MediaItem) (s : HomeState) :
    HomeState × List MediaRequest :=
  if item.id ∈ s.operatingItems then (s, [])
  else if confirmed then
    ({ s with operatingItems := insert item.id s.operatingItems },
     [MediaRequest.deleteMedia item.id])
  else (s, [])

/-- The success continuation of `deleteMedia`: guard release, storage refresh
from the response or an explicit quota re-fetch, then a list re-fetch. -/
def deleteMediaSuccess (itemId : String) (respStorage : Option StorageSummary)
    (s : HomeState) : HomeState × List MediaRequest :=
  let s1 := { s with operatingItems := s.operatingItems.erase itemId }
  let r2 :=
    match respStorage with
    | some st => (({ s1 with storageSummary := some st } : HomeState), ([] : List MediaRequest))
    | none => loadStorageSummary s1
  let r3 := loadMedia r2.1
  (r3.1, r2.2 ++ r3.2)

/-- The error continuation of `deleteMedia`. -/
def deleteMediaError (itemId : String) (s : HomeState) : HomeState :=
  { s with operatingItems := s.operatingItems.erase itemId }

/-- Model of `HomeComponent.uploadFile` up to dispatching the request; `fileId` is the
`name-Date.now()` key the source builds. -/
def uploadFileCall (fileName : String) (nowMs : Nat) (s : HomeState) :
    HomeState × List MediaRequest :=
  let fileId := fileName ++ "-" ++ toString nowMs
  ({ s with
      uploadingFiles := insert fileId s.uploadingFiles
      uploadProgress := (s.uploadProgress.filter fun kv => kv.1 ≠ fileId) ++ [(fileId, 0)]
      uploadError := none },
   [MediaRequest.upload fileName])

/-- The success continuation of `uploadFile`: progress cleanup, storage
refresh from the response or an explicit quota re-fetch, then a list
re-fetch. -/
def uploadSuccess (fileId : String) (respStorage : Option StorageSummary)
    (s : HomeState) : HomeState × List MediaRequest :=
  let s1 := { s with
    uploadingFiles := s.uploadingFiles.erase fileId
    uploadProgress := s.uploadProgress.filter fun kv => kv.1 ≠ fileId }
  let r2 :=
    match respStorage with
    | some st => (({ s1 with storageSummary := some st } : HomeState), ([] : List MediaRequest))
    | none => loadStorageSummary s1
  let r3 := loadMedia r2.1
  (r3.1, r2.2 ++ r3.2)

/-- Model of `HomeComponent.getStoragePercentage`. -/
def getStoragePercentage (s : HomeState) : ℚ :=
  match s.storageSummary with
  | none => 0
  | some st =>
    if st.quotaBytes = 0 then 0
    else min 100 (st.usedBytes / st.quotaBytes * 100)

/-- Model of `MediaService.getPlanDisplayName`. -/
def getPlanDisplayName (quotaBytes : ℚ) : String :=
  let gb := quotaBytes / (1024 * 1024 * 1024)
  if gb ≤ 5 then "Free Plan"
  else if gb ≤ 100 then "Pro Plan"
  else "Enterprise Plan"

/-! ## Helper lemmas about logout and the authentication check -/

theorem logout_flagged (t : AuthState) (h : t.isLoggingOut = true) :
    logout t = (t, []) := by
  simp [logout, h]

theorem logoutCalls_flagged (n : Nat) (t : AuthState) (h : t.isLoggingOut = true) :
    logoutCalls n t = (t, []) := by
  induction n with
  | zero => rfl
  | succ m ih => simp [logoutCalls, logout_flagged t h, ih]

theorem isAuthenticatedCheck_true_eq (decode : List Char → Option TokenPayload)
    (now : Int) (s : AuthState) (h : (isAuthenticatedCheck decode now s).1 = true) :
    isAuthenticatedCheck decode now s = (true, s, []) ∧ s.isLoggingOut = false := by
  by_cases hlo : s.isLoggingOut = true
  · exfalso
    unfold isAuthenticatedCheck at h
    simp [hlo] at h
  · have hlo2 : s.isLoggingOut = false := by simpa using hlo
    cases hst : s.storedToken with
    | none =>
      exfalso
      unfold isAuthenticatedCheck at h
      simp [hlo2, hst] at h
    | some token =>
      by_cases hexp : isTokenExpired decode token now = true
      · exfalso
        unfold isAuthenticatedCheck at h
        simp [hlo2, hst, hexp] at h
      · refine ⟨?_, hlo2⟩
        unfold isAuthenticatedCheck
        simp [hlo2, hst, hexp]

theorem isAuthenticatedCheck_count (decode : List Char → Option TokenPayload)
    (now : Int) (s : AuthState) :
    (isAuthenticatedCheck decode now s).2.2.count AuthEffect.removeTokenEntry ≤ 1 := by
  unfold isAuthenticatedCheck
  split
  · simp
  · split
    · simp
    · split
      · simp only []
        unfold logout
        split
        · simp
        · simp [List.count_cons]
      · simp

/-- C1: `logout()` invoked any number `n ≥ 1` of times while the first
call's asynchronous navigation is still pending performs the
clear-and-navigate sequence exactly once: the whole call burst emits exactly
one removal of each durable entry, one `null` publication and one navigation
(in that order); the first call alone clears the stored token, the stored
user and the user stream and sets the in-progress flag synchronously while
the navigation is still pending; every call made on a flagged state is a
no-op, and the burst's final state is the state after the first call. -/
theorem c1_logout_single_fire (s : AuthState) (n : Nat)
    (h : s.isLoggingOut = false) (hn : 1 ≤ n) :
    (logoutCalls n s).2 =
      [AuthEffect.removeTokenEntry, AuthEffect.removeUserEntry,
       AuthEffect.publishUser none, AuthEffect.navigateLogin] ∧
    (logoutCalls n s).1 = (logout s).1 ∧
    (logout s).1.storedToken = none ∧
    (logout s).1.storedUser = none ∧
    (logout s).1.currentUser = none ∧
    (logout s).1.isLoggingOut = true ∧
    (logout s).1.navPending = true ∧
    (∀ m : Nat, logoutCalls m (logout s).1 = ((logout s).1, [])) := by
  have h1 : (logout s).1.isLoggingOut = true := by simp [logout, h]
  have hnoop : ∀ m : Nat, logoutCalls m (logout s).1 = ((logout s).1, []) :=
    fun m => logoutCalls_flagged m _ h1
  cases n with
  | zero => omega
  | succ m =>
    have hstep : logoutCalls (m + 1) s =
        ((logoutCalls m (logout s).1).1,
         (logout s).2 ++ (logoutCalls m (logout s).1).2) := rfl
    rw [hstep, hnoop m]
    refine ⟨?_, rfl, ?_, ?_, ?_, ?_, ?_, hnoop⟩ <;> simp [logout, h]

theorem c1_logout_single_fire_witness :
    (logoutCalls 3 (AuthState.mk (some "tok") (some "uj") none false false)).2 =
      [AuthEffect.removeTokenEntry, AuthEffect.removeUserEntry,
       AuthEffect.publishUser none, AuthEffect.navigateLogin] :=
  (c1_logout_single_fire (AuthState.mk (some "tok") (some "uj") none false false)
    3 rfl (by decide)).1

/-- A decoder instance for the counterexample token: the payload segment
`eyJleHAiOjB9` is the base64 encoding of a JSON object whose only member is
an `exp` claim equal to `0`; every other segment fails to decode. -/
def decodeExpZero : List Char → Option TokenPayload :=
  fun p => if p = "eyJleHAiOjB9".data then some ⟨some 0⟩ else none

/-- C2 (amended): the expiry check is a pure function of the token string
and the current time and fails closed, with one extra falsy case the source
inherits from `if (!payload.exp)`: a token is *valid* exactly when it splits
on `'.'` into exactly three segments, the payload segment decodes, the
decoded payload has an `exp` claim that is nonzero, and `now ≤ exp`; in
every other situation (wrong segment count, decode failure, missing `exp`,
`exp = 0`, or `exp < now`) it is classified as expired. -/
theorem c2_expiry_fails_closed (decode : List Char → Option TokenPayload)
    (token : String) (now : Int) :
    isTokenExpired decode token now = false ↔
      ∃ a p b payload e,
        splitOnChar '.' token.data = [a, p, b] ∧ decode p = some payload ∧
        payload.exp = some e ∧ e ≠ 0 ∧ now ≤ e := by
  unfold isTokenExpired
  rcases hs : splitOnChar '.' token.data with _ | ⟨x, _ | ⟨y, _ | ⟨z, _ | ⟨w, tl⟩⟩⟩⟩ <;>
    simp only [hs, List.cons.injEq]
  · simp
  · simp
  · simp
  · cases hd : decode y with
    | none => simp [hd]
    | some payload =>
      cases he : payload.exp with
      | none => simp [hd, he]
      | some e =>
        simp only [hd, he, Bool.or_eq_false_iff, decide_eq_false_iff_not, beq_eq_false_iff_ne,
          ne_eq, not_lt, Option.some.injEq]
        constructor
        · rintro ⟨h0, hle⟩
          exact ⟨x, y, z, payload, e, ⟨rfl, rfl, rfl, trivial⟩, hd, he, h0, hle⟩
        · rintro ⟨a, p, b, pl, e2, ⟨rfl, rfl, rfl, -⟩, hpl, hexp, h0, hle⟩
          rw [hd, Option.some_inj] at hpl
          subst hpl
          rw [he, Option.some_inj] at hexp
          subst hexp
          exact ⟨h0, hle⟩
  · simp

/-- C2 counterexample: the token `h.eyJleHAiOjB9.s` has exactly three
dot-separated segments, its payload decodes to a payload whose `exp` claim
is present and equal to `0`, and at current time `0` we have `exp ≥ now`;
the claim therefore classifies it as valid, but the source's
`isTokenExpired` classifies it as expired (`0` is falsy in
`if (!payload.exp)`). -/
theorem c2_expiry_counterexample :
    (splitOnChar '.' "h.eyJleHAiOjB9.s".data).length = 3 ∧
    decodeExpZero "eyJleHAiOjB9".data = some ⟨some 0⟩ ∧
    (0 : Int) ≤ 0 ∧
    claimExpired decodeExpZero "h.eyJleHAiOjB9.s" 0 = false ∧
    isTokenExpired decodeExpZero "h.eyJleHAiOjB9.s" 0 = true := by
  refine ⟨by decide, by decide, le_refl 0, by decide, by decide⟩

/-- C3: for every intercepted error response, the error is re-thrown to the
original caller unchanged; when the status is 401 the handler performs at
most one full logout cycle (at most one removal of the durable token entry
across everything it triggers), it calls `logout()` directly exactly when
the session-presence check `isAuthenticated()` still succeeds, and otherwise
it navigates to the sign-in view without re-invoking `logout()` itself; when
the status is not 401 the session state and effects are untouched. -/
theorem c3_interceptor (decode : List Char → Option TokenPayload) (now : Int)
    (status : Nat) (s : AuthState) :
    (interceptError decode now status s).rethrown = some status ∧
    (interceptError decode now status s).effects.count AuthEffect.removeTokenEntry ≤ 1 ∧
    ((interceptError decode now status s).calledLogout = true ↔
      status = 401 ∧ (isAuthenticatedCheck decode now s).1 = true) ∧
    (status = 401 → (interceptError decode now status s).calledLogout = false →
      AuthEffect.navigateLogin ∈ (interceptError decode now status s).effects) ∧
    (status ≠ 401 → (interceptError decode now status s).state = s ∧
      (interceptError decode now status s).effects = []) := by
  by_cases hst : status = 401
  · subst hst
    by_cases hauth : (isAuthenticatedCheck decode now s).1 = true
    · obtain ⟨heq, hlo⟩ := isAuthenticatedCheck_true_eq decode now s hauth
      simp only [interceptError, heq, if_pos rfl, logout, hlo, Bool.false_eq_true,
        if_false, ite_true]
      refine ⟨trivial, by simp [List.count_cons], by simp [hauth], ?_, by simp⟩
      intro _ hfalse
      simp at hfalse
    · have hauth2 : (isAuthenticatedCheck decode now s).1 = false := by
        simpa using hauth
      simp only [interceptError, hauth2, if_pos rfl, Bool.false_eq_true, if_false,
        eq_self_iff_true, if_true]
      refine ⟨trivial, ?_, by simp [hauth2], ?_, by simp⟩
      · have hc := isAuthenticatedCheck_count decode now s
        simp [List.count_append]
        omega
      · intro _ _
        simp
  · simp [interceptError, hst]

theorem c3_interceptor_witness :
    (interceptError (fun _ => none) 0 401
        (AuthState.mk (some "tok") (some "uj") none false false)).rethrown = some 401 ∧
    AuthEffect.navigateLogin ∈
      (interceptError (fun _ => none) 0 401
        (AuthState.mk (some "tok") (some "uj") none false false)).effects := by
  have h := c3_interceptor (fun _ => none) 0 401
    (AuthState.mk (some "tok") (some "uj") none false false)
  exact ⟨h.1, h.2.2.2.1 rfl (by decide)⟩

/-! ## Theorems about the media view controller -/

/-- A `HomeComponent` state as freshly constructed (before `ngOnInit`). -/
def baseState : HomeState :=
  ⟨none, [], [], "photos", "", false, none, ∅, ∅, [], none, none, false⟩

/-- A demonstration media item with the given id, title and type. -/
def demoItem (i t : String) (ty : MediaType) : MediaItem :=
  ⟨i, ty, t, ⟨"c", "b", "u"⟩, 1, MediaStatus.active, false, false, "", none⟩

/-- C4: `applySearch` is a pure synchronous projection of the cached item
set: when the query is empty or whitespace-only the displayed set is the
full cached set unchanged, and otherwise the displayed set is exactly the
subset of cached items whose lower-cased title contains the lower-cased
trimmed query as a contiguous substring; as a component step it only
assigns `filteredItems` — the cached items are untouched and no request is
issued. -/
theorem c4_applySearch_projection (q : String) (items : List MediaItem)
    (s : HomeState) :
    (trimL q.data = [] → applySearch q items = items) ∧
    (trimL q.data ≠ [] → ∀ x : MediaItem,
      x ∈ applySearch q items ↔
        x ∈ items ∧
          ∃ pre post, toLowerL x.title.data = pre ++ toLowerL (trimL q.data) ++ post) ∧
    (applySearchStep s).1.mediaItems = s.mediaItems ∧
    (applySearchStep s).1.activeTab = s.activeTab ∧
    (applySearchStep s).2 = [] ∧
    (applySearchStep s).1.filteredItems = applySearch s.searchQuery s.mediaItems := by
  refine ⟨?_, ?_, rfl, rfl, rfl, rfl⟩
  · intro h
    simp [applySearch, h]
  · intro h x
    simp only [applySearch, if_neg h, List.mem_filter, trimL_toLowerL, containsSeq_iff]

theorem c4_applySearch_witness :
    applySearch "   " [demoItem "1" "Vacation.jpg" MediaType.photo] =
      [demoItem "1" "Vacation.jpg" MediaType.photo] ∧
    demoItem "1" "Vacation.jpg" MediaType.photo ∈
      applySearch "VAC" [demoItem "1" "Vacation.jpg" MediaType.photo,
        demoItem "3" "beach.png" MediaType.photo] := by
  have h1 := (c4_applySearch_projection "   "
    [demoItem "1" "Vacation.jpg" MediaType.photo] baseState).1 (by decide)
  have h2 := ((c4_applySearch_projection "VAC"
    [demoItem "1" "Vacation.jpg" MediaType.photo,
     demoItem "3" "beach.png" MediaType.photo] baseState).2.1 (by decide)
    (demoItem "1" "Vacation.jpg" MediaType.photo)).2
  exact ⟨h1, h2 ⟨by decide, [], "ation.jpg".data, by decide⟩⟩

/-- C5: the operation guard gives mutual exclusion per item id: a call on an
id already in the guard is a complete no-op that issues no request (for
`toggleFavorite`, `toggleTrash` and permanent delete alike); on a fresh id
the guard entry is inserted synchronously in the same step that dispatches
the single request, so a second call of any of the three operations made
before the first resolves is a no-op; and both the success and the failure
continuation of each operation remove the id, never leaving it stale. -/
theorem c5_operation_guard (item : MediaItem) (s : HomeState) (b : Bool)
    (c : Bool) (resp : Option StorageSummary) :
    (item.id ∈ s.operatingItems →
      toggleFavoriteCall item s = (s, []) ∧
      toggleTrashCall item s = (s, []) ∧
      deleteMediaCall c item s = (s, [])) ∧
    (item.id ∉ s.operatingItems →
      (toggleFavoriteCall item s).2 =
        [MediaRequest.toggleFavorite item.id (!item.isFavorite)] ∧
      item.id ∈ (toggleFavoriteCall item s).1.operatingItems ∧
      toggleFavoriteCall item (toggleFavoriteCall item s).1 =
        ((toggleFavoriteCall item s).1, []) ∧
      toggleTrashCall item (toggleFavoriteCall item s).1 =
        ((toggleFavoriteCall item s).1, []) ∧
      deleteMediaCall c item (toggleFavoriteCall item s).1 =
        ((toggleFavoriteCall item s).1, [])) ∧
    item.id ∉ (toggleFavoriteSuccess item.id b s).1.operatingItems ∧
    item.id ∉ (toggleFavoriteError item.id s).operatingItems ∧
    item.id ∉ (toggleTrashSuccess item.id b resp s).1.operatingItems ∧
    item.id ∉ (toggleTrashError item.id s).operatingItems ∧
    item.id ∉ (deleteMediaSuccess item.id resp s).1.operatingItems ∧
    item.id ∉ (deleteMediaError item.id s).operatingItems := by
  refine ⟨?_, ?_, ?_, ?_, ?_, ?_, ?_, ?_⟩
  · intro h
    exact ⟨by simp [toggleFavoriteCall, h], by simp [toggleTrashCall, h],
      by simp [deleteMediaCall, h]⟩
  · intro h
    refine ⟨by simp [toggleFavoriteCall, h], ?_, ?_, ?_, ?_⟩ <;>
      simp [toggleFavoriteCall, h, toggleTrashCall, deleteMediaCall,
        Finset.mem_insert_self]
  · simp only [toggleFavoriteSuccess, loadMedia]
    split <;> simp [Finset.not_mem_erase]
  · simp [toggleFavoriteError, Finset.not_mem_erase]
  · cases resp <;>
      · simp only [toggleTrashSuccess, loadMedia]
        split <;> simp [Finset.not_mem_erase]
  · simp [toggleTrashError, Finset.not_mem_erase]
  · cases resp <;>
      simp [deleteMediaSuccess, loadMedia, loadStorageSummary, Finset.not_mem_erase]
  · simp [deleteMediaError, Finset.not_mem_erase]

theorem c5_operation_guard_witness :
    (toggleFavoriteCall (demoItem "1" "t" MediaType.photo) baseState).2 =
      [MediaRequest.toggleFavorite "1" true] ∧
    toggleFavoriteCall (demoItem "1" "t" MediaType.photo)
        (toggleFavoriteCall (demoItem "1" "t" MediaType.photo) baseState).1 =
      ((toggleFavoriteCall (demoItem "1" "t" MediaType.photo) baseState).1, []) := by
  have h := (c5_operation_guard (demoItem "1" "t" MediaType.photo) baseState
    true true none).2.1 (by decide)
  exact ⟨h.1, h.2.2.1⟩

/-- C6 (amended): on a successful favorite or trash toggle the local copy of
the item is updated optimistically to the requested state everywhere it is
cached, and the current view is re-fetched exactly when un-favoriting while
the favorites tab is active, or when trashing while a tab other than trash
is active; un-trashing while the trash tab is active does *not* drop the
restored item from the current view — it stays in `filteredItems` (with
`isDeleted = false`) and no re-fetch is issued. -/
theorem c6_toggle_view_membership (itemId : String) (b : Bool)
    (resp : Option StorageSummary) (s : HomeState) :
    (∀ it : MediaItem, it ∈ s.mediaItems →
      (if it.id = itemId then { it with isFavorite := b } else it) ∈
        (toggleFavoriteSuccess itemId b s).1.mediaItems) ∧
    ((∃ f, MediaRequest.getMedia f ∈ (toggleFavoriteSuccess itemId b s).2) ↔
      s.activeTab = "favorites" ∧ b = false) ∧
    (∀ it : MediaItem, it ∈ s.mediaItems →
      (if it.id = itemId then { it with isDeleted := b } else it) ∈
        (toggleTrashSuccess itemId b resp s).1.mediaItems) ∧
    ((∃ f, MediaRequest.getMedia f ∈ (toggleTrashSuccess itemId b resp s).2) ↔
      s.activeTab ≠ "trash" ∧ b = true) ∧
    (s.activeTab = "trash" → b = false →
      (toggleTrashSuccess itemId b resp s).1.filteredItems =
        setDeletedLocal itemId false s.filteredItems ∧
      (toggleTrashSuccess itemId b resp s).2 = []) := by
  have hfavItems : (toggleFavoriteSuccess itemId b s).1.mediaItems =
      setFavoriteLocal itemId b s.mediaItems := by
    simp only [toggleFavoriteSuccess, loadMedia]
    split <;> rfl
  have htrItems : (toggleTrashSuccess itemId b resp s).1.mediaItems =
      setDeletedLocal itemId b s.mediaItems := by
    cases resp <;>
      · simp only [toggleTrashSuccess, loadMedia]
        split <;> rfl
  refine ⟨?_, ?_, ?_, ?_, ?_⟩
  · intro it hit
    rw [hfavItems]
    exact List.mem_map_of_mem _ hit
  · simp only [toggleFavoriteSuccess, loadMedia]
    split
    · rename_i hcond
      simpa using hcond
    · rename_i hcond
      simpa using hcond
  · intro it hit
    rw [htrItems]
    exact List.mem_map_of_mem _ hit
  · cases resp <;>
      · simp only [toggleTrashSuccess, loadMedia]
        split
        · rename_i hcond
          simpa using hcond
        · rename_i hcond
          simpa using hcond
  · intro htab hb
    subst hb
    cases resp <;>
      · simp only [toggleTrashSuccess, loadMedia]
        rw [if_neg (by simp [htab])]
        exact ⟨rfl, rfl⟩

/-- The only favorite item of a favorites-tab view. -/
def favDemoItem : MediaItem :=
  ⟨"f1", MediaType.photo, "fav", ⟨"c", "b", "u"⟩, 1, MediaStatus.active,
   true, false, "", none⟩

/-- A `HomeComponent` state showing the favorites tab with that item. -/
def favTabState : HomeState :=
  { baseState with
      activeTab := "favorites"
      mediaItems := [favDemoItem]
      filteredItems := [favDemoItem] }

theorem c6_toggle_view_membership_witness :
    { favDemoItem with isFavorite := false } ∈
      (toggleFavoriteSuccess "f1" false favTabState).1.mediaItems ∧
    (∃ f, MediaRequest.getMedia f ∈ (toggleFavoriteSuccess "f1" false favTabState).2) := by
  have h := c6_toggle_view_membership "f1" false none favTabState
  refine ⟨?_, h.2.1.mpr ⟨rfl, rfl⟩⟩
  have hid : favDemoItem.id = "f1" := rfl
  have hm := h.1 favDemoItem (by decide)
  rw [if_pos hid] at hm
  exact hm

/-- The only item of a trash-tab view, currently in the trash. -/
def trashedDemoItem : MediaItem :=
  ⟨"i1", MediaType.photo, "pic", ⟨"c", "b", "u"⟩, 10, MediaStatus.trashed,
   false, true, "", none⟩

/-- A `HomeComponent` state showing the trash tab with that single item. -/
def trashTabState : HomeState :=
  { baseState with
      activeTab := "trash"
      mediaItems := [trashedDemoItem]
      filteredItems := [trashedDemoItem] }

/-- C6 counterexample: on the trash tab, successfully un-trashing the only
item leaves the item in the displayed list (now with `isDeleted = false`, so
it no longer matches the trash tab's membership predicate) and issues no
re-fetch — the claim's required drop from the current view does not
happen. -/
theorem c6_toggle_view_counterexample :
    (toggleTrashSuccess "i1" false none trashTabState).2 = [] ∧
    (toggleTrashSuccess "i1" false none trashTabState).1.filteredItems =
      [{ trashedDemoItem with isDeleted := false }] ∧
    ({ trashedDemoItem with isDeleted := false }).isDeleted = false := by
  refine ⟨by decide, by decide, rfl⟩

/-- C7 (amended): `authenticate` (`handleAuthSuccess`) stores the token, the
serialized user and the user stream value together, establishing the
together-or-absent invariant; `logout` preserves it (its first call clears
both durable entries); startup restoration leaves both durable entries
untouched whenever the stored user entry is absent or parses successfully —
but on a malformed stored user entry it removes only the user entry and
keeps the token, so a partial token-without-user session can result (see the
counterexample). -/
theorem c7_session_pairing (stringify : User → String) (resp : AuthResponse)
    (parse : String → Option User) (s : AuthState) (t : Option String)
    (us : Option String) (v : String) :
    ((handleAuthSuccess stringify resp s).storedToken = some resp.accessToken ∧
     (handleAuthSuccess stringify resp s).storedUser = some (stringify resp.user) ∧
     (handleAuthSuccess stringify resp s).currentUser = some resp.user ∧
     sessionConsistent (handleAuthSuccess stringify resp s)) ∧
    (sessionConsistent s → sessionConsistent (logout s).1) ∧
    (s.isLoggingOut = false →
      (logout s).1.storedToken = none ∧ (logout s).1.storedUser = none) ∧
    ((∀ w : String, us = some w → (parse w).isSome = true) →
      (serviceInit parse t us).storedToken = t ∧
      (serviceInit parse t us).storedUser = us) ∧
    (parse v = none →
      (serviceInit parse t (some v)).storedToken = t ∧
      (serviceInit parse t (some v)).storedUser = none) := by
  refine ⟨⟨rfl, rfl, rfl, by simp [handleAuthSuccess, sessionConsistent]⟩, ?_, ?_, ?_, ?_⟩
  · intro h
    unfold logout
    split
    · exact h
    · simp [sessionConsistent]
  · intro h
    simp [logout, h]
  · intro h
    cases us with
    | none => exact ⟨rfl, rfl⟩
    | some w =>
      have hw := h w rfl
      cases hpw : parse w with
      | none => simp [hpw] at hw
      | some u => simp [serviceInit, getUserFromStorage, hpw]
  · intro h
    simp [serviceInit, getUserFromStorage, h]

theorem c7_session_pairing_witness :
    sessionConsistent
      (handleAuthSuccess (fun _ => "uj") ⟨"tok", ⟨"1", "f", "l", "e"⟩⟩
        (AuthState.mk none none none false false)) ∧
    (serviceInit (fun w => if w = "uj" then some ⟨"1", "f", "l", "e"⟩ else none)
        (some "tok") (some "uj")).storedUser = some "uj" ∧
    sessionConsistent (logout (AuthState.mk (some "tok") (some "uj") none false false)).1 := by
  have h := c7_session_pairing (fun _ => "uj") ⟨"tok", ⟨"1", "f", "l", "e"⟩⟩
    (fun w => if w = "uj" then some ⟨"1", "f", "l", "e"⟩ else none)
    (AuthState.mk (some "tok") (some "uj") none false false) (some "tok") (some "uj") "x"
  refine ⟨h.1.2.2.2, ?_, h.2.1 (by decide)⟩
  refine (h.2.2.2.1 ?_).2
  intro w hw
  obtain rfl := Option.some.inj hw
  decide

/-- A model of `JSON.parse` restricted to inputs on which it throws (any
malformed serialized-user entry). -/
def failingParse : String → Option User := fun _ => none

/-- C7 counterexample: starting the service with a stored token alongside a
malformed stored user entry removes only the user entry and keeps the token,
leaving a partial session (token without user) in the durable store — the
claimed invariant does not survive startup restoration. -/
theorem c7_session_pairing_counterexample :
    (serviceInit failingParse (some "tok") (some "not-json")).storedToken = some "tok" ∧
    (serviceInit failingParse (some "tok") (some "not-json")).storedUser = none ∧
    ¬ sessionConsistent (serviceInit failingParse (some "tok") (some "not-json")) := by
  refine ⟨rfl, rfl, by decide⟩

/-- C8 (amended): after a successful upload or permanent delete the quota
summary is replaced from the response's storage summary when present and
otherwise refreshed through an explicit quota re-fetch; after a successful
trash toggle the summary is replaced only when the response carries one —
when it is absent the trash toggle leaves the cached summary unchanged and
issues no quota re-fetch (see the counterexample). -/
theorem c8_quota_refresh (s : HomeState) (st : StorageSummary)
    (fid itemId : String) (b : Bool) :
    (uploadSuccess fid (some st) s).1.storageSummary = some st ∧
    MediaRequest.getStorageSummary ∉ (uploadSuccess fid (some st) s).2 ∧
    MediaRequest.getStorageSummary ∈ (uploadSuccess fid none s).2 ∧
    (deleteMediaSuccess itemId (some st) s).1.storageSummary = some st ∧
    MediaRequest.getStorageSummary ∉ (deleteMediaSuccess itemId (some st) s).2 ∧
    MediaRequest.getStorageSummary ∈ (deleteMediaSuccess itemId none s).2 ∧
    (toggleTrashSuccess itemId b (some st) s).1.storageSummary = some st ∧
    (toggleTrashSuccess itemId b none s).1.storageSummary = s.storageSummary ∧
    MediaRequest.getStorageSummary ∉ (toggleTrashSuccess itemId b none s).2 := by
  refine ⟨rfl, by simp [uploadSuccess, loadMedia], by simp [uploadSuccess, loadMedia,
    loadStorageSummary], rfl, by simp [deleteMediaSuccess, loadMedia],
    by simp [deleteMediaSuccess, loadMedia, loadStorageSummary], ?_, ?_, ?_⟩
  · simp only [toggleTrashSuccess, loadMedia]
    split <;> rfl
  · simp only [toggleTrashSuccess, loadMedia]
    split <;> rfl
  · simp only [toggleTrashSuccess, loadMedia]
    split <;> simp

/-- The stale quota summary cached before the trash toggle. -/
def staleSummary : StorageSummary := ⟨50, 100, 50, 50, "old"⟩

/-- A photos-tab state holding that stale summary. -/
def photosTabState : HomeState :=
  { baseState with activeTab := "photos", storageSummary := some staleSummary }

/-- C8 counterexample: a successful trash toggle whose response carries no
storage summary keeps the stale cached summary and issues no quota
re-fetch, silently skipping the refresh the claim requires. -/
theorem c8_quota_refresh_counterexample :
    (toggleTrashSuccess "i1" true none photosTabState).1.storageSummary =
      some staleSummary ∧
    MediaRequest.getStorageSummary ∉ (toggleTrashSuccess "i1" true none photosTabState).2 := by
  constructor <;> decide

/-- C9 (amended): for every cached storage summary with `usedBytes ≥ 0` and
`quotaBytes ≥ 0`, the displayed percentage equals
`usedBytes/quotaBytes * 100` clamped to `[0, 100]`, is `0` when the quota is
`0`, and always lies in `[0, 100]`; without the added nonnegativity of
`quotaBytes` the code's one-sided `Math.min(100, …)` clamp can go negative
(see the counterexample). -/
theorem c9_storage_percentage (s : HomeState) (st : StorageSummary)
    (hs : s.storageSummary = some st) (hu : 0 ≤ st.usedBytes)
    (hq : 0 ≤ st.quotaBytes) :
    getStoragePercentage s = max 0 (min 100 (st.usedBytes / st.quotaBytes * 100)) ∧
    0 ≤ getStoragePercentage s ∧ getStoragePercentage s ≤ 100 ∧
    (st.quotaBytes = 0 → getStoragePercentage s = 0) := by
  have hgp : getStoragePercentage s =
      if st.quotaBytes = 0 then 0
      else min 100 (st.usedBytes / st.quotaBytes * 100) := by
    simp [getStoragePercentage, hs]
  by_cases h0 : st.quotaBytes = 0
  · rw [hgp, if_pos h0]
    refine ⟨?_, le_refl 0, by norm_num, fun _ => rfl⟩
    rw [h0, div_zero, zero_mul]
    rw [min_eq_right (by norm_num : (0 : ℚ) ≤ 100), max_self]
  · rw [hgp, if_neg h0]
    have hqpos : 0 < st.quotaBytes := lt_of_le_of_ne hq (Ne.symm h0)
    have hratio : 0 ≤ st.usedBytes / st.quotaBytes * 100 := by positivity
    have hmin : 0 ≤ min 100 (st.usedBytes / st.quotaBytes * 100) :=
      le_min (by norm_num) hratio
    exact ⟨(max_eq_right hmin).symm, hmin, min_le_left _ _, fun hc => absurd hc h0⟩

theorem c9_storage_percentage_witness :
    0 ≤ getStoragePercentage
        { baseState with storageSummary := some ⟨50, 200, 150, 25, "now"⟩ } ∧
    getStoragePercentage
        { baseState with storageSummary := some ⟨50, 200, 150, 25, "now"⟩ } ≤ 100 := by
  have h := c9_storage_percentage
    { baseState with storageSummary := some ⟨50, 200, 150, 25, "now"⟩ }
    ⟨50, 200, 150, 25, "now"⟩ rfl (by norm_num) (by norm_num)
  exact ⟨h.2.1, h.2.2.1⟩

/-- A cached summary with a (nonsensical but representable) negative quota. -/
def negQuotaState : HomeState :=
  { baseState with storageSummary := some ⟨1, -1, 0, 0, "x"⟩ }

/-- C9 counterexample: with `usedBytes = 1 ≥ 0` and `quotaBytes = -1`, the
code's `Math.min(100, used/quota * 100)` returns `-100`, which is not the
claimed clamp to `[0, 100]` — the displayed percentage is not always in
`[0, 100]` under the claim's sole hypothesis `usedBytes ≥ 0`. -/
theorem c9_storage_percentage_counterexample :
    getStoragePercentage negQuotaState = -100 ∧
    ¬ (0 ≤ getStoragePercentage negQuotaState) ∧
    (0 : ℚ) ≤ 1 := by
  have h : getStoragePercentage negQuotaState = -100 := by
    norm_num [getStoragePercentage, negQuotaState, baseState]
  refine ⟨h, by rw [h]; norm_num, by norm_num⟩

/-- C10: the plan-tier classification uses fixed inclusive thresholds at
5 GiB and 100 GiB (1 GiB = 1024³ bytes): `Free Plan` exactly when
`quotaBytes ≤ 5·1024³`, `Pro Plan` exactly when
`5·1024³ < quotaBytes ≤ 100·1024³`, `Enterprise Plan` exactly when
`quotaBytes > 100·1024³`; a quota of exactly 5 GiB or exactly 100 GiB
classifies into the lower tier. -/
theorem c10_plan_tiers (q : ℚ) :
    (getPlanDisplayName q = "Free Plan" ↔ q ≤ 5 * 1024 ^ 3) ∧
    (getPlanDisplayName q = "Pro Plan" ↔ 5 * 1024 ^ 3 < q ∧ q ≤ 100 * 1024 ^ 3) ∧
    (getPlanDisplayName q = "Enterprise Plan" ↔ 100 * 1024 ^ 3 < q) ∧
    getPlanDisplayName (5 * 1024 ^ 3) = "Free Plan" ∧
    getPlanDisplayName (100 * 1024 ^ 3) = "Pro Plan" := by
  have hc : (0 : ℚ) < 1024 * 1024 * 1024 := by norm_num
  have hfree : q / (1024 * 1024 * 1024) ≤ 5 ↔ q ≤ 5 * 1024 ^ 3 := by
    rw [div_le_iff₀ hc]
    norm_num
  have hpro : q / (1024 * 1024 * 1024) ≤ 100 ↔ q ≤ 100 * 1024 ^ 3 := by
    rw [div_le_iff₀ hc]
    norm_num
  have hb1 : getPlanDisplayName (5 * 1024 ^ 3) = "Free Plan" := by
    unfold getPlanDisplayName
    rw [if_pos (by norm_num)]
  have hb2 : getPlanDisplayName (100 * 1024 ^ 3) = "Pro Plan" := by
    unfold getPlanDisplayName
    rw [if_neg (by norm_num), if_pos (by norm_num)]
  unfold getPlanDisplayName
  by_cases hA : q / (1024 * 1024 * 1024) ≤ 5
  · rw [if_pos hA]
    have hq5 : q ≤ 5 * 1024 ^ 3 := hfree.mp hA
    refine ⟨iff_of_true rfl hq5, iff_of_false (by decide) ?_,
      iff_of_false (by decide) ?_, hb1, hb2⟩
    · rintro ⟨h1, -⟩
      exact absurd hq5 (not_le.mpr h1)
    · intro h1
      exact absurd (by nlinarith : q ≤ 100 * 1024 ^ 3) (not_le.mpr h1)
  · rw [if_neg hA]
    have hq5 : 5 * 1024 ^ 3 < q := not_le.mp fun hcon => hA (hfree.mpr hcon)
    by_cases hB : q / (1024 * 1024 * 1024) ≤ 100
    · rw [if_pos hB]
      have hq100 : q ≤ 100 * 1024 ^ 3 := hpro.mp hB
      exact ⟨iff_of_false (by decide) (fun hcon => absurd hq5 (not_lt.mpr hcon)),
        iff_of_true rfl ⟨hq5, hq100⟩,
        iff_of_false (by decide) (not_lt.mpr hq100),
        hb1, hb2⟩
    · rw [if_neg hB]
      have hq100 : 100 * 1024 ^ 3 < q := not_le.mp fun hcon => hB (hpro.mpr hcon)
      refine ⟨iff_of_false (by decide) ?_,
        iff_of_false (by decide) (fun hcon => absurd hq100 (not_lt.mpr hcon.2)),
        iff_of_true rfl hq100, hb1, hb2⟩
      intro hcon
      exact absurd (by nlinarith : q ≤ 100 * 1024 ^ 3) (not_le.mpr hq100)

end CloudMedia
